import Mathlib

/-!
Shallow embedding of
`superset-frontend/plugins/legacy-plugin-chart-country-map/src/CountryMap.js`
(the Superset country-map chart renderer), together with theorems checking
the behavioral specification against it.

Conventions of the embedding:
* A JS value that may be `undefined`/`null` is an `Option`.
* A GeoJSON feature is `Feature` with an optional `properties` record whose
  `ISO` field is itself optional, mirroring `feature?.properties?.ISO`.
* JS truthiness of a string (`if (!iso) return`) is `isoTruthy`: the empty
  string and `undefined` are both falsy.
* `new Set(array)` followed by `Array.from` preserves first-occurrence
  insertion order; `jsDedup` reproduces that.
* Numbers are `ℚ` (the arithmetic in the file is exact on the inputs the
  claims quantify over; no float rounding is at issue in any claim).
* DOM side effects are modelled by returning the values the code writes
  (styles, stored zoom state, emitted dataMask payloads, invoked callbacks).
-/

/-- The `properties` record of a GeoJSON feature as the code reads it. -/
structure FeatureProps where
  ISO : Option String
  NAME_1 : Option String
  NAME_2 : Option String
deriving DecidableEq, Repr

/-- A GeoJSON feature; `properties` may be absent (`feature?.properties`). -/
structure Feature where
  properties : Option FeatureProps
deriving DecidableEq, Repr

/-- One data row: `{ country_id: string, metric: number }`. -/
structure Datum where
  country_id : String
  metric : ℚ
deriving DecidableEq, Repr

/-- The externally owned filter state read by the component
(`filterState.selectedValues`). -/
structure FilterState where
  selectedValues : Option (List String)
deriving DecidableEq, Repr

/-- `feature?.properties?.ISO` — optional chaining through the feature. -/
def getIso (f : Option Feature) : Option String :=
  (f.bind Feature.properties).bind FeatureProps.ISO

/-- JS truthiness check `if (!iso) ...`: `undefined` and the empty string
are falsy. -/
def isoTruthy : Option String → Option String
  | none => none
  | some s => if s = "" then none else some s

/-- Worker for `jsDedup`: iterate the list, skipping elements already seen,
exactly as `new Set(list)` builds its insertion-order contents. -/
def jsDedupFrom : List String → List String → List String
  | _, [] => []
  | seen, a :: l =>
    if a ∈ seen then jsDedupFrom seen l
    else a :: jsDedupFrom (a :: seen) l

/-- `new Set(list)` materialised back to an array by `Array.from`: keeps the
first occurrence of each element, in insertion order. -/
def jsDedup (l : List String) : List String := jsDedupFrom [] l

theorem mem_jsDedupFrom (x : String) :
    ∀ (l seen : List String),
      x ∈ jsDedupFrom seen l ↔ (x ∈ l ∧ x ∉ seen) := by
  intro l
  induction l with
  | nil => intro seen; simp [jsDedupFrom]
  | cons a t ih =>
    intro seen
    by_cases ha : a ∈ seen
    · rw [jsDedupFrom, if_pos ha, ih]
      simp only [List.mem_cons]
      constructor
      · rintro ⟨hx, hs⟩
        exact ⟨Or.inr hx, hs⟩
      · rintro ⟨hx | hx, hs⟩
        · subst hx; exact absurd ha hs
        · exact ⟨hx, hs⟩
    · rw [jsDedupFrom, if_neg ha]
      simp only [List.mem_cons, ih]
      by_cases hxa : x = a
      · subst hxa; simp [ha]
      · simp [hxa]

/-- Membership is preserved by the JS `Set` round-trip. -/
theorem mem_jsDedup (x : String) (l : List String) : x ∈ jsDedup l ↔ x ∈ l := by
  simp [jsDedup, mem_jsDedupFrom]

theorem jsDedupFrom_all_seen :
    ∀ (l seen : List String), (∀ x ∈ l, x ∈ seen) → jsDedupFrom seen l = [] := by
  intro l
  induction l with
  | nil => intro seen _; rfl
  | cons a t ih =>
    intro seen h
    rw [jsDedupFrom, if_pos (h a (List.mem_cons_self a t))]
    exact ih seen fun x hx => h x (List.mem_cons_of_mem a hx)

/-- If every element of a nonempty list equals `r`, the JS `Set` of the list
is exactly `{r}`. -/
theorem jsDedup_const (l : List String) (r : String)
    (h : ∀ x ∈ l, x = r) (hne : l ≠ []) : jsDedup l = [r] := by
  match l with
  | [] => exact absurd rfl hne
  | a :: t =>
    have ha : a = r := h a (List.mem_cons_self a t)
    subst ha
    rw [jsDedup, jsDedupFrom, if_neg (List.not_mem_nil a)]
    rw [jsDedupFrom_all_seen t [a]]
    intro x hx
    simp [h x (List.mem_cons_of_mem a hx)]

/-- The code's plain-click condition `currently.size === 1 && currently.has(iso)`
holds exactly when the baseline selection, viewed as a set, is `{r}`. -/
theorem jsDedup_singleton_iff (l : List String) (r : String) :
    ((jsDedup l).length = 1 ∧ r ∈ jsDedup l) ↔ (l ≠ [] ∧ ∀ x ∈ l, x = r) := by
  constructor
  · rintro ⟨hlen, hmem⟩
    obtain ⟨y, hy⟩ := List.length_eq_one.mp hlen
    rw [hy] at hmem
    have hyr : r = y := by simpa using hmem
    subst hyr
    constructor
    · intro hnil
      subst hnil
      simp [jsDedup, jsDedupFrom] at hy
    · intro x hx
      have : x ∈ jsDedup l := (mem_jsDedup x l).mpr hx
      rw [hy] at this
      simpa using this
  · rintro ⟨hne, hall⟩
    rw [jsDedup_const l r hall hne]
    simp

/-! ## Emitted dataMask payloads -/

/-- One `{ col, op: 'IN', val }` clause of `extraFormData.filters`. -/
structure InFilter where
  col : String
  op : String
  val : List String
deriving DecidableEq, Repr

/-- The `extraFormData` object of an emitted dataMask. -/
structure ExtraFormData where
  filters : List InFilter
deriving DecidableEq, Repr

/-- The `filterState` object of an emitted dataMask. -/
structure FilterStateOut where
  value : Option (List String)
  selectedValues : Option (List String)
deriving DecidableEq, Repr

/-- The dataMask object passed to `setDataMask` / nested in the context
menu's `crossFilter` payload. -/
structure DataMask where
  extraFormData : ExtraFormData
  filterState : FilterStateOut
deriving DecidableEq, Repr

/-- Return value of `getCrossFilterDataMask` (when not `undefined`). -/
structure CrossFilterResult where
  dataMask : DataMask
  isCurrentValueSelected : Bool
deriving DecidableEq, Repr

/-- `getCrossFilterDataMask(source)` from the code: reads
`filterState.selectedValues || []`, bails out with `undefined` on a falsy
ISO, and otherwise builds the clear-if-selected / select-if-not payload. -/
def getCrossFilterDataMask (fs : FilterState) (entity : String)
    (source : Option Feature) : Option CrossFilterResult :=
  let selected := fs.selectedValues.getD []
  match isoTruthy (getIso source) with
  | none => none
  | some iso =>
    let isSelected := decide (iso ∈ selected)
    let values : List String := if isSelected then [] else [iso]
    some
      { dataMask :=
          { extraFormData :=
              { filters :=
                  if values.length ≠ 0 then
                    [{ col := entity, op := "IN", val := values }]
                  else [] }
            filterState :=
              { value := if values.length ≠ 0 then some values else none
                selectedValues :=
                  if values.length ≠ 0 then some values else none } }
        isCurrentValueSelected := isSelected }

/-! ## Click handler -/

/-- The toggle computation inside `handleClick`: build the JS `Set` of the
baseline, toggle membership on shift-click, clear or replace on plain click,
and read the result back off with `Array.from`. -/
def toggleSelection (baseline : List String) (iso : String)
    (shift : Bool) : List String :=
  let currently := jsDedup baseline
  if shift then
    if iso ∈ currently then currently.filter (fun x => x ≠ iso)
    else currently ++ [iso]
  else if currently.length = 1 ∧ iso ∈ currently then []
  else [iso]

/-- The dataMask literal `handleClick` passes to `setDataMask`, as a function
of the toggled selection. -/
def clickDataMask (entity : String) (newSelection : List String) : DataMask :=
  { extraFormData :=
      { filters :=
          if newSelection.length ≠ 0 then
            [{ col := entity, op := "IN", val := newSelection }]
          else [] }
    filterState :=
      { value := if newSelection.length ≠ 0 then some newSelection else none
        selectedValues :=
          if newSelection.length ≠ 0 then some newSelection else none } }

/-- `handleClick(feature)`: `none` models an early return without calling
`setDataMask`; `some mask` models the call `setDataMask(mask)`. -/
def handleClick (emitCrossFilters hasSetDataMask : Bool) (fs : FilterState)
    (entity : String) (feature : Option Feature) (shiftKey : Bool) :
    Option DataMask :=
  if !emitCrossFilters || !hasSetDataMask then none
  else
    match isoTruthy (getIso feature) with
    | none => none
    | some iso =>
      let baseline := fs.selectedValues.getD []
      some (clickDataMask entity (toggleSelection baseline iso shiftKey))

theorem mem_toggleSelection_shift (S : List String) (r x : String) :
    x ∈ toggleSelection S r true ↔ ((x ∈ S ∧ x ≠ r) ∨ (x ∉ S ∧ x = r)) := by
  by_cases hrS : r ∈ S
  · have hr : r ∈ jsDedup S := (mem_jsDedup r S).mpr hrS
    have hbranch : toggleSelection S r true
        = (jsDedup S).filter (fun x => x ≠ r) := by
      simp [toggleSelection, hr]
    rw [hbranch]
    simp only [List.mem_filter, mem_jsDedup, decide_eq_true_eq]
    constructor
    · rintro ⟨hxS, hxr⟩
      exact Or.inl ⟨hxS, hxr⟩
    · rintro (⟨hxS, hxr⟩ | ⟨hxS, rfl⟩)
      · exact ⟨hxS, hxr⟩
      · exact absurd hrS hxS
  · have hr : r ∉ jsDedup S := fun h => hrS ((mem_jsDedup r S).mp h)
    have hbranch : toggleSelection S r true = jsDedup S ++ [r] := by
      simp [toggleSelection, hr]
    rw [hbranch]
    simp only [List.mem_append, mem_jsDedup, List.mem_singleton]
    by_cases hxr : x = r
    · subst hxr; simp [hrS]
    · simp [hxr]

theorem toggleSelection_plain (S : List String) (r : String) :
    ((S ≠ [] ∧ ∀ x ∈ S, x = r) → toggleSelection S r false = []) ∧
    (¬(S ≠ [] ∧ ∀ x ∈ S, x = r) → toggleSelection S r false = [r]) := by
  constructor
  · intro h
    unfold toggleSelection
    rw [if_neg (by simp), if_pos ((jsDedup_singleton_iff S r).mpr h)]
  · intro h
    unfold toggleSelection
    rw [if_neg (by simp), if_neg (fun hc => h ((jsDedup_singleton_iff S r).mp hc))]

/-- C1: with cross-filtering enabled and a `setDataMask` callback supplied,
clicking a region whose (truthy) ISO code is `r` emits
`clickDataMask entity (toggleSelection S r shift)`; a shift-click's new
selection is the symmetric difference of `S` and `{r}` (membership of `r`
toggled, all other members preserved), and a plain click's new selection is
empty when `S` as a set is exactly `{r}` and exactly `[r]` otherwise. -/
theorem handleClick_toggle_semantics (S : List String) (r entity : String)
    (hr : r ≠ "") (shift : Bool) :
    handleClick true true ⟨some S⟩ entity
        (some ⟨some ⟨some r, none, none⟩⟩) shift
      = some (clickDataMask entity (toggleSelection S r shift)) ∧
    (∀ x, x ∈ toggleSelection S r true ↔
        ((x ∈ S ∧ x ≠ r) ∨ (x ∉ S ∧ x = r))) ∧
    ((S ≠ [] ∧ ∀ x ∈ S, x = r) → toggleSelection S r false = []) ∧
    (¬(S ≠ [] ∧ ∀ x ∈ S, x = r) → toggleSelection S r false = [r]) := by
  refine ⟨?_, fun x => mem_toggleSelection_shift S r x,
    (toggleSelection_plain S r).1, (toggleSelection_plain S r).2⟩
  simp [handleClick, getIso, isoTruthy, hr]

/-- C1 witness: the toggle theorem applied at `S = ["FRA"]`, `r = "GBR"`. -/
theorem handleClick_toggle_semantics_witness :
    (("GBR" : String) ≠ "") ∧
    (handleClick true true ⟨some ["FRA"]⟩ "country_code"
        (some ⟨some ⟨some "GBR", none, none⟩⟩) true
      = some (clickDataMask "country_code"
          (toggleSelection ["FRA"] "GBR" true)) ∧
    (∀ x, x ∈ toggleSelection ["FRA"] "GBR" true ↔
        ((x ∈ ["FRA"] ∧ x ≠ "GBR") ∨ (x ∉ ["FRA"] ∧ x = "GBR"))) ∧
    ((["FRA"] ≠ ([] : List String) ∧ ∀ x ∈ ["FRA"], x = "GBR") →
        toggleSelection ["FRA"] "GBR" false = []) ∧
    (¬(["FRA"] ≠ ([] : List String) ∧ ∀ x ∈ ["FRA"], x = "GBR") →
        toggleSelection ["FRA"] "GBR" false = ["GBR"])) :=
  ⟨by decide, handleClick_toggle_semantics ["FRA"] "GBR" "country_code"
    (by decide) true⟩

/-- C2 counterexample: with current selection `["AUS", "BRA"]` and a right
click on the region `"AUS"`, the context menu's crossFilter dataMask clears
the selection (it only tests membership of the clicked code), while a plain
click on the same feature would emit the replace-with-`["AUS"]` mask — the
two computations are not the same function of (feature, selection). -/
theorem crossFilter_click_mismatch :
    (getCrossFilterDataMask ⟨some ["AUS", "BRA"]⟩ "country_code"
        (some ⟨some ⟨some "AUS", none, none⟩⟩)).map CrossFilterResult.dataMask
      ≠ handleClick true true ⟨some ["AUS", "BRA"]⟩ "country_code"
          (some ⟨some ⟨some "AUS", none, none⟩⟩) false := by
  decide

/-- C2 (amended): the context menu's crossFilter dataMask agrees with the
dataMask a plain click would emit precisely on the inputs where membership
testing and sole-selection testing coincide: whenever the clicked code `r`
is not currently selected, or the selection as a set is exactly `{r}`. -/
theorem crossFilter_matches_click_conditionally (S : List String)
    (r entity : String) (hr : r ≠ "")
    (hcond : r ∉ S ∨ (S ≠ [] ∧ ∀ x ∈ S, x = r)) :
    (getCrossFilterDataMask ⟨some S⟩ entity
        (some ⟨some ⟨some r, none, none⟩⟩)).map CrossFilterResult.dataMask
      = handleClick true true ⟨some S⟩ entity
          (some ⟨some ⟨some r, none, none⟩⟩) false := by
  rcases hcond with hniS | hsingle
  · have htog : toggleSelection S r false = [r] := by
      apply (toggleSelection_plain S r).2
      rintro ⟨hne, hall⟩
      obtain ⟨a, ha⟩ := List.exists_mem_of_ne_nil S hne
      exact hniS (hall a ha ▸ ha)
    simp [getCrossFilterDataMask, handleClick, getIso, isoTruthy, hr, hniS,
      htog, clickDataMask]
  · have hrS : r ∈ S := by
      obtain ⟨hne, hall⟩ := hsingle
      obtain ⟨a, ha⟩ := List.exists_mem_of_ne_nil S hne
      exact hall a ha ▸ ha
    have htog : toggleSelection S r false = [] :=
      (toggleSelection_plain S r).1 hsingle
    simp [getCrossFilterDataMask, handleClick, getIso, isoTruthy, hr, hrS,
      htog, clickDataMask]

/-- C2 witness: the amended equivalence applied at `S = ["ITA"]`,
`r = "ESP"` (a code that is not currently selected). -/
theorem crossFilter_matches_click_conditionally_witness :
    (("ESP" : String) ≠ "") ∧
    (("ESP" : String) ∉ ["ITA"] ∨
      ((["ITA"] : List String) ≠ [] ∧ ∀ x ∈ ["ITA"], x = "ESP")) ∧
    (getCrossFilterDataMask ⟨some ["ITA"]⟩ "country_code"
        (some ⟨some ⟨some "ESP", none, none⟩⟩)).map CrossFilterResult.dataMask
      = handleClick true true ⟨some ["ITA"]⟩ "country_code"
          (some ⟨some ⟨some "ESP", none, none⟩⟩) false :=
  ⟨by decide, Or.inl (by decide),
    crossFilter_matches_click_conditionally ["ITA"] "ESP" "country_code"
      (by decide) (Or.inl (by decide))⟩

/-! ## Selection highlighting -/

/-- `selectedValues.includes(iso)` where `iso` may be `undefined`: a list of
strings never contains `undefined`, so a missing ISO is simply not found. -/
def optIncludes (l : List String) (x : Option String) : Bool :=
  match x with
  | some s => decide (s ∈ l)
  | none => false

/-- The three styles `highlightSelectedRegion` writes on one region path. -/
structure RegionStyle where
  fillOpacity : ℚ
  stroke : Option String
  strokeWidth : String
deriving DecidableEq, Repr

/-- `highlightSelectedRegion` restricted to a single datum `d`: normalises
`filterState.selectedValues?.length ? filterState.selectedValues : []` and
writes fill-opacity, stroke and stroke-width exactly as the code does. -/
def highlightStyle (selectedValuesIn : Option (List String))
    (d : Option Feature) : RegionStyle :=
  let selectedValues :=
    match selectedValuesIn with
    | some l => if l.length ≠ 0 then l else []
    | none => []
  let iso := getIso d
  { fillOpacity :=
      if selectedValues.length = 0 ∨ optIncludes selectedValues iso then 1
      else 3 / 10
    stroke := if optIncludes selectedValues iso then some "#222" else none
    strokeWidth :=
      if optIncludes selectedValues iso then "1.5px" else "0.5px" }

/-- C3: for every selection list `S` and region whose feature carries ISO
code `r`, the highlighting pass sets fill-opacity 1 when `S` is empty or
`r ∈ S` and 0.3 otherwise, gives selected regions the darker, thicker
stroke (`'#222'`, `1.5px`) and leaves unselected regions with no inline
stroke (the default) and the base `0.5px` stroke width. -/
theorem highlightSelectedRegion_styles (S : List String) (r : String)
    (n1 n2 : Option String) :
    highlightStyle (some S) (some ⟨some ⟨some r, n1, n2⟩⟩) =
      { fillOpacity := if S = [] ∨ r ∈ S then 1 else 3 / 10
        stroke := if r ∈ S then some "#222" else none
        strokeWidth := if r ∈ S then "1.5px" else "0.5px" } := by
  have hiso : getIso (some ⟨some ⟨some r, n1, n2⟩⟩) = some r := rfl
  by_cases hS : S = []
  · subst hS
    simp [highlightStyle, optIncludes, hiso]
  · by_cases hr : r ∈ S
    · simp [highlightStyle, optIncludes, hiso, hS, hr,
        List.length_eq_zero]
    · simp [highlightStyle, optIncludes, hiso, hS, hr,
        List.length_eq_zero]

/-! ## Zoom behavior -/

/-- The zoom state the code stores per chart key:
`zoomStates[chartKey] = { scale, translate: [tx, ty] }`. -/
structure ZoomState where
  scale : ℚ
  translate : ℚ × ℚ
deriving DecidableEq, Repr

/-- The transform written to the content group `g`:
`translate(tx, ty) scale(s)`. -/
structure Transform where
  translate : ℚ × ℚ
  scale : ℚ
deriving DecidableEq, Repr

/-- The body of the `'zoom'` event listener: clamp the raw translation to
`[min(0, dim - dim*scale), 0]` on each axis and package the result (the
same clamped pair is both applied to `g` and stored). -/
def zoomOnZoom (width height scale tx ty : ℚ) : ZoomState :=
  let scaledW := width * scale
  let scaledH := height * scale
  let minX := min 0 (width - scaledW)
  let maxX : ℚ := 0
  let minY := min 0 (height - scaledH)
  let maxY : ℚ := 0
  let txC := max (min tx maxX) minX
  let tyC := max (min ty maxY) minY
  { scale := scale, translate := (txC, tyC) }

/-- One full zoom gesture: returns the transform applied to the content
group and the updated `zoomStates` store. -/
def zoomGesture (width height : ℚ) (store : String → Option ZoomState)
    (chartKey : String) (scale tx ty : ℚ) :
    Transform × (String → Option ZoomState) :=
  let st := zoomOnZoom width height scale tx ty
  (⟨st.translate, st.scale⟩,
    fun k => if k = chartKey then some st else store k)

/-- C4: for any zoom gesture with `scale ∈ [1, 4]` and any raw translation,
the translation applied to the content group — which is also exactly what
is persisted into the zoom-state store under the chart key — satisfies
`min(0, width - width*scale) ≤ tx ≤ 0` and the analogous bound for `ty`. -/
theorem zoom_translate_clamped (w h s tx ty : ℚ)
    (store : String → Option ZoomState) (key : String)
    (h1 : 1 ≤ s) (h4 : s ≤ 4) :
    (min 0 (w - w * s) ≤ (zoomOnZoom w h s tx ty).translate.1 ∧
      (zoomOnZoom w h s tx ty).translate.1 ≤ 0 ∧
      min 0 (h - h * s) ≤ (zoomOnZoom w h s tx ty).translate.2 ∧
      (zoomOnZoom w h s tx ty).translate.2 ≤ 0) ∧
    (zoomGesture w h store key s tx ty).1
      = ⟨(zoomOnZoom w h s tx ty).translate, s⟩ ∧
    (zoomGesture w h store key s tx ty).2 key
      = some (zoomOnZoom w h s tx ty) := by
  refine ⟨⟨le_max_right _ _, ?_, le_max_right _ _, ?_⟩, rfl, by simp [zoomGesture]⟩
  · exact max_le (le_trans (min_le_right _ _) (le_refl 0)) (min_le_left _ _)
  · exact max_le (le_trans (min_le_right _ _) (le_refl 0)) (min_le_left _ _)

/-- C4 witness: the clamp theorem applied at width 800, height 400,
scale 2, raw translation (-900, 60). -/
theorem zoom_translate_clamped_witness :
    ((1 : ℚ) ≤ 2) ∧ ((2 : ℚ) ≤ 4) ∧
    ((min 0 (800 - 800 * 2) ≤ (zoomOnZoom 800 400 2 (-900) 60).translate.1 ∧
      (zoomOnZoom 800 400 2 (-900) 60).translate.1 ≤ 0 ∧
      min 0 (400 - 400 * 2) ≤ (zoomOnZoom 800 400 2 (-900) 60).translate.2 ∧
      (zoomOnZoom 800 400 2 (-900) 60).translate.2 ≤ 0) ∧
    (zoomGesture 800 400 (fun _ => none) "42" 2 (-900) 60).1
      = ⟨(zoomOnZoom 800 400 2 (-900) 60).translate, 2⟩ ∧
    (zoomGesture 800 400 (fun _ => none) "42" 2 (-900) 60).2 "42"
      = some (zoomOnZoom 800 400 2 (-900) 60)) :=
  ⟨by norm_num, by norm_num,
    zoom_translate_clamped 800 400 2 (-900) 60 (fun _ => none) "42"
      (by norm_num) (by norm_num)⟩

/-- `const chartKey = sliceId || country-width-height` — the unique key for
this chart instance, with JS falsiness of an absent/empty slice id sending
it to the composite fallback. -/
def chartKey (sliceId : Option String) (country : String)
    (width height : ℚ) : String :=
  match sliceId with
  | some s =>
    if s ≠ "" then s
    else country ++ "-" ++ toString width ++ "-" ++ toString height
  | none => country ++ "-" ++ toString width ++ "-" ++ toString height

/-- The restore block of `CountryMap`: if `zoomStates[chartKey]` exists,
apply `translate(tx, ty) scale(s)` from it to the content group before any
interaction; otherwise leave the group untransformed. -/
def restoreZoom (store : String → Option ZoomState) (key : String) :
    Option Transform :=
  match store key with
  | some st => some ⟨st.translate, st.scale⟩
  | none => none

/-- C5: after a zoom gesture on the chart keyed by `chartKey` stored its
`{scale, translate}`, a subsequent render for the same key restores exactly
the transform the gesture applied; when nothing is stored for the key, no
transform is restored. -/
theorem zoom_state_restored (store : String → Option ZoomState)
    (sliceId : Option String) (country : String) (w h s tx ty : ℚ) :
    restoreZoom
        ((zoomGesture w h store (chartKey sliceId country w h) s tx ty).2)
        (chartKey sliceId country w h)
      = some (zoomGesture w h store (chartKey sliceId country w h) s tx ty).1 ∧
    (store (chartKey sliceId country w h) = none →
      restoreZoom store (chartKey sliceId country w h) = none) := by
  constructor
  · simp [restoreZoom, zoomGesture]
  · intro hnone
    simp [restoreZoom, hnone]

/-- C5 witness: the persistence theorem applied at slice id "42", a zoom to
scale 2 with raw translation (-10, -5) on an 800×400 chart, starting from
an empty store. -/
theorem zoom_state_restored_witness :
    restoreZoom
        ((zoomGesture 800 400 (fun _ => none)
            (chartKey (some "42") "france" 800 400) 2 (-10) (-5)).2)
        (chartKey (some "42") "france" 800 400)
      = some (zoomGesture 800 400 (fun _ => none)
            (chartKey (some "42") "france" 800 400) 2 (-10) (-5)).1 ∧
    ((fun _ => (none : Option ZoomState))
        (chartKey (some "42") "france" 800 400) = none →
      restoreZoom (fun _ => none)
        (chartKey (some "42") "france" 800 400) = none) :=
  zoom_state_restored (fun _ => none) (some "42") "france" 800 400 2 (-10) (-5)

/-! ## Geometry loader and error panel -/

/-- Fetched boundary data (`mapData`), as the renderer consumes it. -/
structure MapData where
  features : List Feature
deriving DecidableEq, Repr

/-- Result of the `d3.json(url, callback)` fetch for a country. -/
inductive FetchResult where
  | success (mapData : MapData)
  | failure
deriving DecidableEq, Repr

/-- What a render invocation visibly does with the geometry: draw the map
from some data, or replace the container content with the error panel. -/
inductive RenderOutcome where
  | drew (mapData : MapData)
  | errorPanel (html : String)
deriving DecidableEq, Repr

/-- The error markup
`countryOptions.find(x => x[0] === country)?.[1] || country` interpolated
into the alert `div`, with JS `||` falling back to the raw code when the
lookup misses (or the registered display name is the empty string). -/
def errorHtml (countryOptions : List (String × String))
    (country : String) : String :=
  let countryName :=
    match countryOptions.find? (fun x => x.1 = country) with
    | some x => if x.2 ≠ "" then x.2 else country
    | none => country
  "<div class=\"alert alert-danger\">Could not load map data for "
    ++ countryName ++ "</div>"

/-- The tail of `CountryMap`: consult the process-wide `maps` cache; on a
hit draw with no fetch; on a miss fetch once, populating the cache and
drawing on success, or rendering the error panel (cache untouched) on
failure. Returns (new cache, number of fetches issued, outcome). -/
def renderGeometry (maps : String → Option MapData)
    (countryOptions : List (String × String)) (country : String)
    (fetch : FetchResult) :
    (String → Option MapData) × ℕ × RenderOutcome :=
  match maps country with
  | some m => (maps, 0, RenderOutcome.drew m)
  | none =>
    match fetch with
    | FetchResult.success mapData =>
      (fun c => if c = country then some mapData else maps c, 1,
        RenderOutcome.drew mapData)
    | FetchResult.failure =>
      (maps, 1, RenderOutcome.errorPanel (errorHtml countryOptions country))

/-- C6: a first render of country `c` that misses the cache and loads
successfully issues exactly one fetch and stores the geometry; every
subsequent render of `c` issues no fetch and draws the cached data
(whatever the network would have answered); and no render ever invalidates
or evicts an existing cache entry. -/
theorem geometry_cache_single_fetch (maps : String → Option MapData)
    (countryOptions : List (String × String)) (c : String) (m : MapData)
    (f2 : FetchResult) (hmiss : maps c = none) :
    (renderGeometry maps countryOptions c (FetchResult.success m)).2.1 = 1 ∧
    (renderGeometry maps countryOptions c (FetchResult.success m)).1 c
      = some m ∧
    renderGeometry (renderGeometry maps countryOptions c
        (FetchResult.success m)).1 countryOptions c f2
      = ((renderGeometry maps countryOptions c (FetchResult.success m)).1, 0,
          RenderOutcome.drew m) ∧
    (∀ maps' opts' c' cq m' f,
      maps' cq = some m' →
        (renderGeometry maps' opts' c' f).1 cq = some m') := by
  have hstep :
      renderGeometry maps countryOptions c (FetchResult.success m)
        = (fun c' => if c' = c then some m else maps c', 1,
            RenderOutcome.drew m) := by
    simp [renderGeometry, hmiss]
  refine ⟨by rw [hstep], by rw [hstep]; simp, ?_, ?_⟩
  · rw [hstep]
    simp [renderGeometry]
  · intro maps' opts' c' cq m' f hhit
    unfold renderGeometry
    match hc : maps' c' with
    | some mm => simpa using hhit
    | none =>
      match f with
      | FetchResult.success md =>
        simp only []
        by_cases hq : cq = c'
        · subst hq
          rw [hc] at hhit
          exact absurd hhit (by simp)
        · simpa [hq] using hhit
      | FetchResult.failure => simpa using hhit

/-- C6 witness: the cache theorem applied to an initially empty cache,
country "france", a successful first fetch, and a failing network on the
second render (which the cache hit makes irrelevant). -/
theorem geometry_cache_single_fetch_witness :
    ((fun _ => (none : Option MapData)) "france" = none) ∧
    ((renderGeometry (fun _ => none) [] "france"
        (FetchResult.success ⟨[]⟩)).2.1 = 1 ∧
    (renderGeometry (fun _ => none) [] "france"
        (FetchResult.success ⟨[]⟩)).1 "france" = some ⟨[]⟩ ∧
    renderGeometry (renderGeometry (fun _ => none) [] "france"
        (FetchResult.success ⟨[]⟩)).1 [] "france" FetchResult.failure
      = ((renderGeometry (fun _ => none) [] "france"
            (FetchResult.success ⟨[]⟩)).1, 0, RenderOutcome.drew ⟨[]⟩) ∧
    (∀ maps' opts' c' cq m' f,
      maps' cq = some m' →
        (renderGeometry maps' opts' c' f).1 cq = some m')) :=
  ⟨rfl, geometry_cache_single_fetch (fun _ => none) [] "france" ⟨[]⟩
    FetchResult.failure rfl⟩

/-- C8: when the fetch for a cache-missing country fails, the render issues
exactly one fetch (no retry), leaves the cache untouched, produces only the
error panel (no callback, no drawing), and the panel text names the country
by its registered display name when one exists (falling back to the raw
code when the lookup misses). -/
theorem load_failure_error_panel (maps : String → Option MapData)
    (opts : List (String × String)) (country : String)
    (hmiss : maps country = none) :
    renderGeometry maps opts country FetchResult.failure
      = (maps, 1, RenderOutcome.errorPanel (errorHtml opts country)) ∧
    (∀ p, opts.find? (fun x => x.1 = country) = some p → p.2 ≠ "" →
      errorHtml opts country
        = "<div class=\"alert alert-danger\">Could not load map data for "
            ++ p.2 ++ "</div>") ∧
    (opts.find? (fun x => x.1 = country) = none →
      errorHtml opts country
        = "<div class=\"alert alert-danger\">Could not load map data for "
            ++ country ++ "</div>") := by
  refine ⟨by simp [renderGeometry, hmiss], ?_, ?_⟩
  · intro p hp hne
    simp [errorHtml, hp, hne]
  · intro hnone
    simp [errorHtml, hnone]

/-- C8 witness: the error-panel theorem applied to a one-entry display-name
registry containing "france" ↦ "France", plus the implications discharged
at that entry. -/
theorem load_failure_error_panel_witness :
    ((fun _ => (none : Option MapData)) "france" = none) ∧
    (renderGeometry (fun _ => none) [("france", "France")] "france"
        FetchResult.failure
      = ((fun _ => none), 1,
          RenderOutcome.errorPanel
            (errorHtml [("france", "France")] "france")) ∧
    (∀ p, [("france", "France")].find? (fun x => x.1 = "france") = some p →
        p.2 ≠ "" →
      errorHtml [("france", "France")] "france"
        = "<div class=\"alert alert-danger\">Could not load map data for "
            ++ p.2 ++ "</div>") ∧
    ([("france", "France")].find? (fun x => x.1 = "france") = none →
      errorHtml [("france", "France")] "france"
        = "<div class=\"alert alert-danger\">Could not load map data for "
            ++ "france" ++ "</div>")) :=
  ⟨rfl, load_failure_error_panel (fun _ => none) [("france", "France")]
    "france" rfl⟩

/-! ## Fill color -/

/-- `colorFn` from the code: `'none'` when the feature has no properties
record, else the color-map entry for `properties.ISO` with the JS `||`
fallback to `'#FFFEFE'` on a missing (or falsy) entry. -/
def colorFn (colorMap : String → Option String)
    (feature : Option Feature) : String :=
  match feature.bind Feature.properties with
  | none => "none"
  | some props =>
    match props.ISO with
    | none => "#FFFEFE"
    | some iso =>
      match colorMap iso with
      | some c => if c ≠ "" then c else "#FFFEFE"
      | none => "#FFFEFE"

/-- C7 counterexample: a feature whose properties record is missing is
filled with `'none'`, not with the near-white fallback `'#FFFEFE'` the
claim prescribes for every feature without a color-map entry. -/
theorem colorFn_missing_properties_not_fallback :
    colorFn (fun _ => none) (some ⟨none⟩) = "none" ∧
    colorFn (fun _ => none) (some ⟨none⟩) ≠ "#FFFEFE" := by
  decide

/-- C7 (amended): for a feature that does carry a properties record, the
fill is the color-map entry for its ISO code, defaulting to `'#FFFEFE'`
when the ISO is absent or has no entry (color-map entries being non-empty
color strings); a missing feature or a feature without a properties record
is instead filled with `'none'`. -/
theorem colorFn_fallback_semantics (colorMap : String → Option String)
    (hcm : ∀ k c, colorMap k = some c → c ≠ "") (props : FeatureProps) :
    colorFn colorMap (some ⟨some props⟩)
      = (props.ISO.bind colorMap).getD "#FFFEFE" ∧
    colorFn colorMap none = "none" ∧
    colorFn colorMap (some ⟨none⟩) = "none" := by
  refine ⟨?_, rfl, rfl⟩
  cases hI : props.ISO with
  | none => simp [colorFn, hI, Option.bind]
  | some iso =>
    cases hc : colorMap iso with
    | none => simp [colorFn, hI, hc, Option.bind]
    | some c =>
      have hne : c ≠ "" := hcm iso c hc
      simp [colorFn, hI, hc, hne, Option.bind]

/-- C7 witness: the amended color theorem applied to the empty color map
and a properties record with ISO "FRA". -/
theorem colorFn_fallback_semantics_witness :
    (∀ (k : String) (c : String),
        (fun _ : String => (none : Option String)) k = some c → c ≠ "") ∧
    (colorFn (fun _ => none) (some ⟨some ⟨some "FRA", none, none⟩⟩)
      = (((⟨some "FRA", none, none⟩ : FeatureProps).ISO).bind
          (fun _ => none)).getD "#FFFEFE" ∧
    colorFn (fun _ => none) none = "none" ∧
    colorFn (fun _ => none) (some ⟨none⟩) = "none") :=
  ⟨fun _ c h => Option.noConfusion h,
    colorFn_fallback_semantics (fun _ => none)
      (fun _ c h => Option.noConfusion h) ⟨some "FRA", none, none⟩⟩

/-! ## Hover tooltip metric -/

/-- `updateMetrics(regionRows)`: the formatted metric of the first row, or
the empty string when no row was passed. -/
def updateMetricsText (format : ℚ → String) (regionRows : List Datum) :
    String :=
  match regionRows with
  | [] => ""
  | r :: _ => format r.metric

/-- The metric text the `mouseenter` handler displays:
`data.filter(r => r.country_id === d?.properties?.ISO)` fed to
`updateMetrics`. -/
def mouseenterMetricText (format : ℚ → String) (data : List Datum)
    (d : Option Feature) : String :=
  updateMetricsText format
    (data.filter fun r => decide (some r.country_id = getIso d))

/-- C9: hovering a feature with ISO code `iso` shows the formatted metric of
the first data row (in input order) whose `country_id` equals `iso`; rows
after the first match are ignored, and with no matching row the metric text
is the empty string. -/
theorem hover_metric_first_match (format : ℚ → String)
    (pre post : List Datum) (row : Datum) (iso : String)
    (hrow : row.country_id = iso) (hpre : ∀ x ∈ pre, x.country_id ≠ iso) :
    mouseenterMetricText format (pre ++ row :: post)
        (some ⟨some ⟨some iso, none, none⟩⟩) = format row.metric ∧
    (∀ data : List Datum, (∀ x ∈ data, x.country_id ≠ iso) →
      mouseenterMetricText format data
          (some ⟨some ⟨some iso, none, none⟩⟩) = "") := by
  have hgi : getIso (some ⟨some ⟨some iso, none, none⟩⟩) = some iso := rfl
  constructor
  · unfold mouseenterMetricText
    rw [hgi, List.filter_append]
    have h1 : (pre.filter fun r => decide (some r.country_id = some iso))
        = [] := by
      rw [List.filter_eq_nil_iff]
      intro x hx
      simp [hpre x hx]
    have h2 : ((row :: post).filter
          fun r => decide (some r.country_id = some iso))
        = row :: (post.filter fun r => decide (some r.country_id = some iso)) := by
      rw [List.filter_cons_of_pos]
      simp [hrow]
    rw [h1, h2]
    rfl
  · intro data hnone
    unfold mouseenterMetricText
    rw [hgi]
    have h3 : (data.filter fun r => decide (some r.country_id = some iso))
        = [] := by
      rw [List.filter_eq_nil_iff]
      intro x hx
      simp [hnone x hx]
    rw [h3]
    rfl

/-- C9 witness: the hover theorem applied to data
`[("DEU", 5), ("FRA", 10), ("FRA", 20)]` and a hover over "FRA": the first
matching row's metric 10 wins and the duplicate row 20 is ignored. -/
theorem hover_metric_first_match_witness :
    ((⟨"FRA", 10⟩ : Datum).country_id = "FRA") ∧
    (∀ x ∈ [(⟨"DEU", 5⟩ : Datum)], x.country_id ≠ "FRA") ∧
    (mouseenterMetricText (fun q => toString q)
        ([⟨"DEU", 5⟩] ++ ⟨"FRA", 10⟩ :: [⟨"FRA", 20⟩])
        (some ⟨some ⟨some "FRA", none, none⟩⟩)
      = (fun q => toString q) (10 : ℚ) ∧
    (∀ data : List Datum, (∀ x ∈ data, x.country_id ≠ "FRA") →
      mouseenterMetricText (fun q => toString q) data
          (some ⟨some ⟨some "FRA", none, none⟩⟩) = "")) :=
  ⟨rfl, by decide,
    hover_metric_first_match (fun q => toString q) [⟨"DEU", 5⟩]
      [⟨"FRA", 20⟩] ⟨"FRA", 10⟩ "FRA" rfl (by decide)⟩

/-! ## Context menu -/

/-- One `{ col, op: '==', val, formattedVal? }` equality filter of the
drill-to-detail / drill-by payloads. -/
structure EqFilter where
  col : String
  op : String
  val : String
  formattedVal : Option String
deriving DecidableEq, Repr

/-- The `drillBy` member of the context-menu payload. -/
structure DrillBy where
  filters : List EqFilter
  groupbyFieldName : String
deriving DecidableEq, Repr

/-- The third argument `handleContextMenu` passes to `onContextMenu`. -/
structure ContextMenuPayload where
  drillToDetail : List EqFilter
  crossFilter : Option CrossFilterResult
  drillBy : DrillBy
deriving DecidableEq, Repr

/-- A call `onContextMenu(clientX, clientY, payload)`. -/
structure ContextMenuInvocation where
  clientX : ℚ
  clientY : ℚ
  payload : ContextMenuPayload
deriving DecidableEq, Repr

/-- `handleContextMenu(feature)`: the first component records whether
`preventDefault` was called on the pointer event (it is, whenever an
`onContextMenu` handler is supplied); the second is the callback invocation
performed, `none` when the handler bailed out. -/
def handleContextMenu (hasOnContextMenu : Bool) (fs : FilterState)
    (entity : String) (feature : Option Feature) (clientX clientY : ℚ) :
    Bool × Option ContextMenuInvocation :=
  let prevented := hasOnContextMenu
  match isoTruthy (getIso feature) with
  | none => (prevented, none)
  | some iso =>
    if hasOnContextMenu then
      (prevented, some
        { clientX := clientX, clientY := clientY
          payload :=
            { drillToDetail := [⟨entity, "==", iso, some iso⟩]
              crossFilter := getCrossFilterDataMask fs entity feature
              drillBy :=
                { filters := [⟨entity, "==", iso, none⟩]
                  groupbyFieldName := "entity" } } })
    else (prevented, none)

/-- C10: with a context-menu callback supplied, right-clicking a feature
with no truthy ISO code (missing properties included) still calls
`preventDefault` on the pointer event, yet never invokes the callback. -/
theorem contextmenu_suppresses_without_emitting (fs : FilterState)
    (entity : String) (feature : Option Feature) (cx cy : ℚ)
    (hiso : isoTruthy (getIso feature) = none) :
    handleContextMenu true fs entity feature cx cy = (true, none) := by
  simp [handleContextMenu, hiso]

/-- C10 witness: the suppression theorem applied to a feature whose
properties record is missing. -/
theorem contextmenu_suppresses_without_emitting_witness :
    isoTruthy (getIso (some ⟨none⟩)) = none ∧
    handleContextMenu true ⟨none⟩ "country_code" (some ⟨none⟩) 3 4
      = (true, none) :=
  ⟨rfl, contextmenu_suppresses_without_emitting ⟨none⟩ "country_code"
    (some ⟨none⟩) 3 4 rfl⟩
